import Mathlib

/-!
Verification development for the pretix-pages plugin (src/pretix_pages/views.py).

The plugin manages event-scoped static "Page" records: a list view, a create
view, an update view, a delete view (all management, permission-gated) and a
public renderer that resolves a page by (event, slug).

We embed the data model (Page records in a database, audit log entries,
request-scoped notification messages) and the view operations as pure
state-transition functions. Each mutating view body is translated to a list
of primitive effects (notify / log_action / save / delete) executed inside a
transaction: `runAtomic` applies the effects in order, and an optional failure
index models an exception raised partway through the `@transaction.atomic`
block, which rolls back all database effects while request-scoped
notifications already queued survive.
-/

namespace PretixPages

/-- A cleaned form-field value: the form fields are localized strings
(title, slug, text) and booleans (the two display flags). -/
inductive Value where
  | str (v : String)
  | bool (b : Bool)
deriving DecidableEq, Repr

/-- The Page model: id (primary key), owning event (foreign key, modelled by
the event id), and the five form-editable fields of `PageForm.Meta.fields`. -/
structure Page where
  id : Nat
  event : Nat
  title : String
  slug : String
  text : String
  link_in_footer : Bool
  link_on_frontpage : Bool
deriving DecidableEq, Repr

/-- The submitted data of a `PageForm` / `PageEditForm`: one value per form
field. -/
structure PageFormData where
  title : String
  slug : String
  text : String
  link_in_footer : Bool
  link_on_frontpage : Bool
deriving DecidableEq, Repr

/-- An audit log entry produced by `log_action`: the acted-on object, the
event whose trail owns the entry, the action name, the acting user and the
optional data payload. -/
structure LogEntry where
  objectId : Nat
  event : Nat
  action : String
  user : Nat
  data : Option (List (String × Value))
deriving DecidableEq, Repr

/-- The persistent store: the Page table, the id the next insert receives,
and the audit log. -/
structure DB where
  pages : List Page
  nextId : Nat
  log : List LogEntry
deriving DecidableEq, Repr

/-- Database plus the request-scoped queue of success notifications
(`messages.success`), which is not stored in the database and hence not
subject to transaction rollback. -/
structure RequestState where
  db : DB
  notices : List String
deriving DecidableEq, Repr

/-- Validation error raised by `PageForm.clean_slug`. -/
inductive FormError where
  | duplicate_slug
deriving DecidableEq, Repr

/-- The Http404 error raised by the scoped lookups. -/
inductive Http404 where
  | notFound
deriving DecidableEq, Repr

/-- Message shown by `PageUpdate.form_valid`. -/
def msgSaved : String := "Your changes have been saved."

/-- Message shown by `PageCreate.form_valid`. -/
def msgCreated : String := "The new page has been created."

/-- Message shown by `PageDelete.delete`. -/
def msgDeleted : String := "The selected category has been deleted."

/-- Action name of the audit entry emitted on update. -/
def actionChanged : String := "pretix_pages.page.changed"

/-- Action name of the audit entry emitted on creation. -/
def actionAdded : String := "pretix_pages.page.added"

/-- Action name of the audit entry emitted on deletion. -/
def actionDeleted : String := "pretix_pages.page.deleted"

/-- PageForm.clean_slug: rejects the candidate slug when a Page with that
slug already exists for the owning event, otherwise returns the slug. -/
def PageForm_clean_slug (db : DB) (event : Nat) (slug : String) :
    Except FormError String :=
  if db.pages.any (fun p => p.slug == slug && p.event == event) then
    Except.error FormError.duplicate_slug
  else
    Except.ok slug

/-- PageEditForm.clean_slug: ignores any submitted value and returns the
stored slug of the instance being edited (the field is disabled). -/
def PageEditForm_clean_slug (inst : Page) (_submitted : String) : String :=
  inst.slug

/-- PageDetailMixin.get_object: looks a Page up by (event, id); Http404 when
no Page of that event has that id. -/
def PageDetailMixin_get_object (db : DB) (event : Nat) (pageId : Nat) :
    Except Http404 Page :=
  match db.pages.find? (fun p => p.event == event && p.id == pageId) with
  | some p => Except.ok p
  | none => Except.error Http404.notFound

/-- ShowPageView.get_page: the public renderer resolves a Page by
(event, slug); Http404 when no Page of that event has that slug. -/
def ShowPageView_get_page (db : DB) (event : Nat) (slug : String) :
    Except Http404 Page :=
  match db.pages.find? (fun p => p.event == event && p.slug == slug) with
  | some p => Except.ok p
  | none => Except.error Http404.notFound

/-- PageList has `model = Page` and no queryset override, so its queryset is
`Page.objects.all()`: every Page in the database, regardless of event. -/
def PageList_queryset (db : DB) (_event : Nat) : List Page :=
  db.pages

/-- PageList.paginate_by. -/
def PageList_paginate_by : Nat := 20

/-- The field names of `PageForm.Meta.fields`, in declaration order. -/
def fieldNames : List String :=
  ["title", "slug", "text", "link_in_footer", "link_on_frontpage"]

/-- The cleaned value a form data record holds for a given field name. -/
def fieldValue (d : PageFormData) : String → Option Value
  | "title" => some (Value.str d.title)
  | "slug" => some (Value.str d.slug)
  | "text" => some (Value.str d.text)
  | "link_in_footer" => some (Value.bool d.link_in_footer)
  | "link_on_frontpage" => some (Value.bool d.link_on_frontpage)
  | _ => none

/-- `form.cleaned_data` of a successfully validated create form, as the
dictionary `dict(form.cleaned_data)` logged by `PageCreate.form_valid`. -/
def cleanedData (d : PageFormData) : List (String × Value) :=
  [("title", Value.str d.title), ("slug", Value.str d.slug),
   ("text", Value.str d.text), ("link_in_footer", Value.bool d.link_in_footer),
   ("link_on_frontpage", Value.bool d.link_on_frontpage)]

/-- The form data of an edit form after cleaning: `PageEditForm.clean_slug`
replaces the submitted slug by the stored slug of the edited instance. -/
def editCleanedData (inst : Page) (d : PageFormData) : PageFormData :=
  { d with slug := PageEditForm_clean_slug inst d.slug }

/-- The initial values of an edit form, taken from the edited instance. -/
def pageAsFormData (p : Page) : PageFormData :=
  ⟨p.title, p.slug, p.text, p.link_in_footer, p.link_on_frontpage⟩

/-- `form.changed_data` of an edit form: the fields whose cleaned value
differs from the initial value taken from the instance. The disabled slug
field always keeps its initial value, so it never appears. -/
def changedData (inst : Page) (d : PageFormData) : List String :=
  fieldNames.filter (fun k =>
    fieldValue (editCleanedData inst d) k != fieldValue (pageAsFormData inst) k)

/-- The data payload of the `page.changed` audit entry:
`{k: form.cleaned_data.get(k) for k in form.changed_data}`. -/
def changedDataMap (inst : Page) (d : PageFormData) : List (String × Value) :=
  (changedData inst d).filterMap (fun k =>
    (fieldValue (editCleanedData inst d) k).map (fun v => (k, v)))

/-- The instance after `form.save()` on an edit form: every field takes its
cleaned value; the cleaned slug is the stored slug. -/
def applyEditForm (inst : Page) (d : PageFormData) : Page :=
  { inst with
      title := d.title
      slug := PageEditForm_clean_slug inst d.slug
      text := d.text
      link_in_footer := d.link_in_footer
      link_on_frontpage := d.link_on_frontpage }

/-- A primitive side effect of a view body. -/
inductive Effect where
  | notify (msg : String)
  | logAction (objectId : Nat) (event : Nat) (user : Nat) (action : String)
      (data : Option (List (String × Value)))
  | savePage (p : Page)
  | deletePage (objectId : Nat)
deriving DecidableEq, Repr

/-- Saving a Page row: update in place when a row with the id exists,
insert otherwise. -/
def savePageInDB (db : DB) (p : Page) : DB :=
  if db.pages.any (fun q => q.id == p.id) then
    { db with pages := db.pages.map (fun q => if q.id == p.id then p else q) }
  else
    { db with pages := db.pages ++ [p], nextId := max db.nextId (p.id + 1) }

/-- Applying one effect to the request state. -/
def applyEffect (s : RequestState) : Effect → RequestState
  | Effect.notify m => { s with notices := s.notices ++ [m] }
  | Effect.logAction oid ev uid act d =>
      { s with db := { s.db with log := s.db.log ++ [⟨oid, ev, act, uid, d⟩] } }
  | Effect.savePage p => { s with db := savePageInDB s.db p }
  | Effect.deletePage oid =>
      { s with db := { s.db with pages := s.db.pages.filter (fun q => q.id != oid) } }

/-- Applying a list of effects in order. -/
def applyEffects (s : RequestState) (es : List Effect) : RequestState :=
  es.foldl applyEffect s

/-- Running an effect list inside `@transaction.atomic`. `failAt = some n`
models an exception raised by the effect at index `n`: the transaction rolls
the database back to its initial state, while request-scoped notifications
queued by the effects already executed remain queued. -/
def runAtomic (s : RequestState) (es : List Effect) (failAt : Option Nat) :
    RequestState :=
  match failAt with
  | none => applyEffects s es
  | some n =>
      if n < es.length then
        { db := s.db, notices := (applyEffects s (es.take n)).notices }
      else
        applyEffects s es

/-- The effect sequence of `PageDelete.delete`: log `page.deleted` (no data),
delete the row, queue the success message. -/
def PageDelete_effects (p : Page) (user : Nat) : List Effect :=
  [Effect.logAction p.id p.event user actionDeleted none,
   Effect.deletePage p.id,
   Effect.notify msgDeleted]

/-- PageDelete.delete: scoped lookup, then the atomic effect sequence.
Http404 when the lookup misses; on error the state is unchanged. -/
def PageDelete_run (s : RequestState) (event user pageId : Nat)
    (failAt : Option Nat) : Except Http404 Unit × RequestState :=
  match PageDetailMixin_get_object s.db event pageId with
  | Except.error e => (Except.error e, s)
  | Except.ok p => (Except.ok (), runAtomic s (PageDelete_effects p user) failAt)

/-- The effect sequence of `PageUpdate.form_valid`: queue the success
message, log `page.changed` with the changed fields when `form.has_changed()`,
save the instance. -/
def PageUpdate_form_valid (inst : Page) (d : PageFormData) (user : Nat) :
    List Effect :=
  [Effect.notify msgSaved]
  ++ (if (changedData inst d).isEmpty then []
      else [Effect.logAction inst.id inst.event user actionChanged
              (some (changedDataMap inst d))])
  ++ [Effect.savePage (applyEditForm inst d)]

/-- PageUpdate: scoped lookup, then the atomic `form_valid` effect sequence.
The edit form has no failing validation (its `clean_slug` always returns the
stored slug). -/
def PageUpdate_run (s : RequestState) (event user pageId : Nat)
    (d : PageFormData) (failAt : Option Nat) : Except Http404 Unit × RequestState :=
  match PageDetailMixin_get_object s.db event pageId with
  | Except.error e => (Except.error e, s)
  | Except.ok p => (Except.ok (), runAtomic s (PageUpdate_form_valid p d user) failAt)

/-- The Page persisted by a successful create: bound to the current event
(`form.instance.event = self.request.event`), id assigned by the database,
fields from the cleaned form data. -/
def newPageOf (db : DB) (event : Nat) (d : PageFormData) : Page :=
  ⟨db.nextId, event, d.title, d.slug, d.text, d.link_in_footer, d.link_on_frontpage⟩

/-- The effect sequence of `PageCreate.form_valid`: queue the success
message, save the new instance, log `page.added` with the full cleaned
data. -/
def PageCreate_form_valid (db : DB) (event : Nat) (d : PageFormData)
    (user : Nat) : List Effect :=
  [Effect.notify msgCreated,
   Effect.savePage (newPageOf db event d),
   Effect.logAction (newPageOf db event d).id event user actionAdded
     (some (cleanedData d))]

/-- PageCreate: form validation runs `PageForm.clean_slug`; a validation
error redisplays the form with the state unchanged; on success the atomic
`form_valid` effect sequence runs. -/
def PageCreate_run (s : RequestState) (event user : Nat) (d : PageFormData)
    (failAt : Option Nat) : Except FormError Unit × RequestState :=
  match PageForm_clean_slug s.db event d.slug with
  | Except.error e => (Except.error e, s)
  | Except.ok _ =>
      (Except.ok (), runAtomic s (PageCreate_form_valid s.db event d user) failAt)

/-! Helper lemmas about the store and the effect machinery. -/

/-- Saving a row never touches the audit log. -/
theorem savePageInDB_log (db : DB) (p : Page) : (savePageInDB db p).log = db.log := by
  unfold savePageInDB
  split <;> rfl

/-- Saving a row never touches the next id of rows other than by insert. -/
theorem savePageInDB_mem (db : DB) (p : Page) : p ∈ (savePageInDB db p).pages := by
  unfold savePageInDB
  by_cases hany : db.pages.any (fun q => q.id == p.id) = true
  · obtain ⟨q, hq, hid⟩ := List.any_eq_true.mp hany
    simp only [hany, if_true]
    exact List.mem_map.mpr ⟨q, hq, by simp [hid]⟩
  · simp [hany]

/-- After saving row `p`, every row carrying the id of `p` is `p` itself. -/
theorem savePageInDB_id_eq (db : DB) (p : Page) :
    ∀ q ∈ (savePageInDB db p).pages, q.id = p.id → q = p := by
  intro q hq hid
  unfold savePageInDB at hq
  by_cases hany : db.pages.any (fun r => r.id == p.id) = true
  · simp only [hany, if_true] at hq
    obtain ⟨r, _, hrq⟩ := List.mem_map.mp hq
    by_cases hr : r.id == p.id
    · simpa [hr] using hrq.symm
    · rw [if_neg hr] at hrq
      subst hrq
      exact absurd (beq_iff_eq.mpr hid) hr
  · simp only [hany, if_false, Bool.false_eq_true] at hq
    rcases List.mem_append.mp hq with hmem | hmem
    · have : db.pages.any (fun r => r.id == p.id) = true :=
        List.any_eq_true.mpr ⟨q, hmem, by simp [hid]⟩
      exact absurd this hany
    · simpa using hmem

/-- Applying one effect can only grow the notification queue. -/
theorem applyEffect_notices_mono (s : RequestState) (e : Effect) (m : String)
    (h : m ∈ s.notices) : m ∈ (applyEffect s e).notices := by
  cases e with
  | notify msg => exact List.mem_append.mpr (Or.inl h)
  | logAction oid ev uid act d => exact h
  | savePage p => exact h
  | deletePage oid => exact h

/-- Applying a list of effects can only grow the notification queue. -/
theorem applyEffects_notices_mono (es : List Effect) (s : RequestState) (m : String)
    (h : m ∈ s.notices) : m ∈ (applyEffects s es).notices := by
  induction es generalizing s with
  | nil => exact h
  | cons e es ih => exact ih _ (applyEffect_notices_mono s e m h)

/-- Applying one effect preserves audit log membership. -/
theorem applyEffect_log_mono (s : RequestState) (e : Effect) (x : LogEntry)
    (h : x ∈ s.db.log) : x ∈ (applyEffect s e).db.log := by
  cases e with
  | notify msg => exact h
  | logAction oid ev uid act d => exact List.mem_append.mpr (Or.inl h)
  | savePage p => simpa [applyEffect, savePageInDB_log] using h
  | deletePage oid => exact h

/-- Unfolding one step of effect application. -/
theorem applyEffects_cons (s : RequestState) (e : Effect) (es : List Effect) :
    applyEffects s (e :: es) = applyEffects (applyEffect s e) es := rfl

/-- Applying a list of effects preserves audit log membership. -/
theorem applyEffects_log_mono (es : List Effect) (s : RequestState) (x : LogEntry)
    (h : x ∈ s.db.log) : x ∈ (applyEffects s es).db.log := by
  induction es generalizing s with
  | nil => exact h
  | cons e es ih => exact ih _ (applyEffect_log_mono s e x h)

/-- Value held for the title field. -/
theorem fieldValue_title (d : PageFormData) :
    fieldValue d "title" = some (Value.str d.title) := rfl

/-- Value held for the slug field. -/
theorem fieldValue_slug (d : PageFormData) :
    fieldValue d "slug" = some (Value.str d.slug) := rfl

/-- Value held for the text field. -/
theorem fieldValue_text (d : PageFormData) :
    fieldValue d "text" = some (Value.str d.text) := rfl

/-- Value held for the footer flag. -/
theorem fieldValue_footer (d : PageFormData) :
    fieldValue d "link_in_footer" = some (Value.bool d.link_in_footer) := rfl

/-- Value held for the frontpage flag. -/
theorem fieldValue_frontpage (d : PageFormData) :
    fieldValue d "link_on_frontpage" = some (Value.bool d.link_on_frontpage) := rfl

/-- Every known field name has a value. -/
theorem fieldValue_isSome_of_mem (d : PageFormData) (k : String)
    (hk : k ∈ fieldNames) : ∃ v, fieldValue d k = some v := by
  simp only [fieldNames, List.mem_cons, List.mem_singleton] at hk
  rcases hk with rfl | rfl | rfl | rfl | rfl | h
  · exact ⟨_, fieldValue_title d⟩
  · exact ⟨_, fieldValue_slug d⟩
  · exact ⟨_, fieldValue_text d⟩
  · exact ⟨_, fieldValue_footer d⟩
  · exact ⟨_, fieldValue_frontpage d⟩
  · cases h

/-- Collecting the keys of a field-value association built over known field
names gives those names back. -/
theorem filterMap_fieldValue_keys (e : PageFormData) (l : List String)
    (h : ∀ k ∈ l, k ∈ fieldNames) :
    (l.filterMap (fun k => (fieldValue e k).map (fun v => (k, v)))).map Prod.fst = l := by
  induction l with
  | nil => rfl
  | cons k l ih =>
      obtain ⟨v, hv⟩ := fieldValue_isSome_of_mem e k (h k (List.mem_cons_self k l))
      simp only [List.filterMap_cons, hv, Option.map_some', List.map_cons,
        List.cons.injEq, true_and]
      exact ih (fun x hx => h x (List.mem_cons_of_mem k hx))

/-- The keys of the changed-data payload are exactly the changed fields. -/
theorem changedDataMap_keys (p : Page) (d : PageFormData) :
    (changedDataMap p d).map Prod.fst = changedData p d :=
  filterMap_fieldValue_keys (editCleanedData p d) (changedData p d)
    (fun k hk => (List.mem_filter.mp hk).1)

/-- Every entry of the changed-data payload maps a changed field to its
cleaned (new) value. -/
theorem changedDataMap_spec (p : Page) (d : PageFormData) :
    ∀ kv ∈ changedDataMap p d, kv.1 ∈ changedData p d ∧
      fieldValue (editCleanedData p d) kv.1 = some kv.2 := by
  intro kv hkv
  obtain ⟨k, hk, hmap⟩ := List.mem_filterMap.mp hkv
  cases hval : fieldValue (editCleanedData p d) k with
  | none => rw [hval] at hmap; simp at hmap
  | some v =>
      rw [hval] at hmap
      have hkv2 : (k, v) = kv := by simpa using hmap
      subst hkv2
      exact ⟨hk, hval⟩

/-! Concrete sample data used by the witnesses. -/

/-- Sample page owned by event 1. -/
def pageEx : Page := ⟨1, 1, "Imprint", "imprint", "Hello", true, false⟩

/-- Sample database holding only `pageEx`. -/
def dbEx : DB := ⟨[pageEx], 2, []⟩

/-- Sample request state over `dbEx` with an empty notification queue. -/
def sEx : RequestState := ⟨dbEx, []⟩

/-- Request state over an empty database. -/
def sEmpty : RequestState := ⟨⟨[], 1, []⟩, []⟩

/-- Form data identical to the stored values of `pageEx`. -/
def dEx : PageFormData := ⟨"Imprint", "imprint", "Hello", true, false⟩

/-- Form data changing the title of `pageEx` and submitting a different
slug. -/
def dEx2 : PageFormData := ⟨"Imprint v2", "other", "Hello", true, false⟩

/-! The claims. -/

/-- C1: for every state, event and submitted form data: if a Page with the
submitted slug already exists for the event, the Create operation fails with
the duplicate-slug validation error and no second Page is persisted (the
state is unchanged); and if no Page with the submitted slug exists for the
event, slug validation succeeds and returns the candidate slug. -/
theorem create_duplicate_slug_rejected (s : RequestState) (ev uid : Nat)
    (d : PageFormData) :
    ((∃ p ∈ s.db.pages, p.slug = d.slug ∧ p.event = ev) →
      (PageCreate_run s ev uid d none).1 = Except.error FormError.duplicate_slug ∧
      (PageCreate_run s ev uid d none).2 = s) ∧
    ((¬ ∃ p ∈ s.db.pages, p.slug = d.slug ∧ p.event = ev) →
      PageForm_clean_slug s.db ev d.slug = Except.ok d.slug) := by
  constructor
  · intro hex
    obtain ⟨p, hp, hs, he⟩ := hex
    have hany : s.db.pages.any (fun q => q.slug == d.slug && q.event == ev) = true :=
      List.any_eq_true.mpr ⟨p, hp, by simp [hs, he]⟩
    constructor
    · simp [PageCreate_run, PageForm_clean_slug, hany]
    · simp [PageCreate_run, PageForm_clean_slug, hany]
  · intro hnone
    have hfalse : s.db.pages.any (fun q => q.slug == d.slug && q.event == ev) = false := by
      rw [List.any_eq_false]
      intro q hq hcontra
      simp only [Bool.and_eq_true, beq_iff_eq] at hcontra
      exact hnone ⟨q, hq, hcontra.1, hcontra.2⟩
    simp [PageForm_clean_slug, hfalse]

/-- Witness for C1, exercising both branches: in the sample state, which
already holds a page with slug "imprint" for event 1, creating another page
with that slug for event 1 fails with the duplicate-slug error and leaves
the state unchanged; and in the empty state, where no such page exists,
slug validation succeeds and returns the candidate slug. -/
theorem create_duplicate_slug_rejected_witness :
    ((PageCreate_run sEx 1 5 dEx none).1 = Except.error FormError.duplicate_slug ∧
     (PageCreate_run sEx 1 5 dEx none).2 = sEx) ∧
    PageForm_clean_slug sEmpty.db 1 dEx.slug = Except.ok dEx.slug :=
  ⟨(create_duplicate_slug_rejected sEx 1 5 dEx).1
     ⟨pageEx, by simp [sEx, dbEx], rfl, rfl⟩,
   (create_duplicate_slug_rejected sEmpty 1 5 dEx).2 (by decide)⟩

/-- C2: the list view has no queryset override, so its queryset is
`Page.objects.all()`: a Page belonging to a different event appears in the
list shown for the current event; the claimed event scoping does not hold
(the batch size is 20 as claimed). Concretely, the page owned by event 1
appears in the list for event 2. -/
theorem pageList_cross_event_leak :
    pageEx ∈ PageList_queryset dbEx 2 ∧ pageEx.event ≠ 2 ∧
    PageList_paginate_by = 20 := by
  refine ⟨?_, by decide, rfl⟩
  simp [PageList_queryset, dbEx]

/-- C8: a successful Create persists the new Page bound to the current
event, appends exactly one `page.added` audit entry whose data is the full
cleaned form data, the save effect precedes the audit effect in the
transaction body, and a failure at any point of the transaction rolls the
database back entirely. -/
theorem create_persists_and_logs (s : RequestState) (ev uid : Nat)
    (d : PageFormData)
    (h : (PageCreate_run s ev uid d none).1 = Except.ok ()) :
    newPageOf s.db ev d ∈ (PageCreate_run s ev uid d none).2.db.pages ∧
    (newPageOf s.db ev d).event = ev ∧
    (PageCreate_run s ev uid d none).2.db.log
      = s.db.log ++ [⟨s.db.nextId, ev, actionAdded, uid, some (cleanedData d)⟩] ∧
    (PageCreate_form_valid s.db ev d uid)[1]?
      = some (Effect.savePage (newPageOf s.db ev d)) ∧
    (PageCreate_form_valid s.db ev d uid)[2]?
      = some (Effect.logAction s.db.nextId ev uid actionAdded
          (some (cleanedData d))) ∧
    (∀ n, n < (PageCreate_form_valid s.db ev d uid).length →
      (runAtomic s (PageCreate_form_valid s.db ev d uid) (some n)).db = s.db) := by
  by_cases hcl : s.db.pages.any (fun q => q.slug == d.slug && q.event == ev) = true
  · exfalso
    simp [PageCreate_run, PageForm_clean_slug, hcl] at h
  · have hrun : (PageCreate_run s ev uid d none).2
        = applyEffects s (PageCreate_form_valid s.db ev d uid) := by
      simp [PageCreate_run, PageForm_clean_slug, hcl, runAtomic]
    refine ⟨?_, rfl, ?_, rfl, rfl, ?_⟩
    · rw [hrun]
      have hpg : (applyEffects s (PageCreate_form_valid s.db ev d uid)).db.pages
          = (savePageInDB s.db (newPageOf s.db ev d)).pages := by
        simp [applyEffects, PageCreate_form_valid, applyEffect]
      rw [hpg]
      exact savePageInDB_mem s.db (newPageOf s.db ev d)
    · rw [hrun]
      simp [applyEffects, PageCreate_form_valid, applyEffect, savePageInDB_log,
        newPageOf]
    · intro n hn
      simp [runAtomic, hn]

/-- Witness for C8: creating a page in the empty state persists the new page
and logs `page.added` with the full cleaned data. -/
theorem create_persists_and_logs_witness :
    newPageOf sEmpty.db 1 dEx ∈ (PageCreate_run sEmpty 1 5 dEx none).2.db.pages ∧
    (PageCreate_run sEmpty 1 5 dEx none).2.db.log
      = sEmpty.db.log ++ [⟨1, 1, actionAdded, 5, some (cleanedData dEx)⟩] :=
  ⟨(create_persists_and_logs sEmpty 1 5 dEx rfl).1,
   (create_persists_and_logs sEmpty 1 5 dEx rfl).2.2.1⟩

/-- C3: an Update on an existing Page succeeds; when no field changed, no
audit entry is emitted; when at least one field changed, exactly one
`page.changed` audit entry is appended, and its data maps exactly the
changed field names to their new (cleaned) values. -/
theorem update_audit_iff_changed (s : RequestState) (ev uid pid : Nat)
    (d : PageFormData) (p : Page)
    (hp : PageDetailMixin_get_object s.db ev pid = Except.ok p) :
    (PageUpdate_run s ev uid pid d none).1 = Except.ok () ∧
    (changedData p d = [] →
      (PageUpdate_run s ev uid pid d none).2.db.log = s.db.log) ∧
    (changedData p d ≠ [] →
      (PageUpdate_run s ev uid pid d none).2.db.log
        = s.db.log
          ++ [⟨p.id, p.event, actionChanged, uid, some (changedDataMap p d)⟩]) ∧
    (changedDataMap p d).map Prod.fst = changedData p d ∧
    (∀ kv ∈ changedDataMap p d,
      fieldValue (editCleanedData p d) kv.1 = some kv.2) := by
  refine ⟨?_, ?_, ?_, changedDataMap_keys p d,
    fun kv hkv => (changedDataMap_spec p d kv hkv).2⟩
  · simp [PageUpdate_run, hp]
  · intro hch
    have hemp : (changedData p d).isEmpty = true := by simp [hch]
    simp [PageUpdate_run, hp, runAtomic, PageUpdate_form_valid, hemp,
      applyEffects, applyEffect, savePageInDB_log]
  · intro hch
    have hemp : (changedData p d).isEmpty = false := by
      cases hc : changedData p d with
      | nil => exact absurd hc hch
      | cons a l => rfl
    simp [PageUpdate_run, hp, runAtomic, PageUpdate_form_valid, hemp,
      applyEffects, applyEffect, savePageInDB_log]

/-- Witness for C3: updating the sample page with a changed title appends
exactly the `page.changed` entry carrying the changed fields, and updating
it with identical values leaves the audit log unchanged. -/
theorem update_audit_iff_changed_witness :
    (PageUpdate_run sEx 1 7 1 dEx2 none).2.db.log
      = sEx.db.log ++ [⟨1, 1, actionChanged, 7, some (changedDataMap pageEx dEx2)⟩] ∧
    (PageUpdate_run sEx 1 7 1 dEx none).2.db.log = sEx.db.log :=
  ⟨(update_audit_iff_changed sEx 1 7 1 dEx2 pageEx rfl).2.2.1 (by decide),
   (update_audit_iff_changed sEx 1 7 1 dEx pageEx rfl).2.1 (by decide)⟩

/-- The audit log produced by a successful Update: unchanged when no field
changed, one `page.changed` entry appended otherwise. -/
theorem update_run_log (s : RequestState) (ev uid pid : Nat)
    (d : PageFormData) (p : Page)
    (hp : PageDetailMixin_get_object s.db ev pid = Except.ok p) :
    (PageUpdate_run s ev uid pid d none).2.db.log
      = s.db.log ++ (if (changedData p d).isEmpty then []
          else [⟨p.id, p.event, actionChanged, uid, some (changedDataMap p d)⟩]) := by
  cases hb : (changedData p d).isEmpty with
  | true =>
      simp [PageUpdate_run, hp, runAtomic, PageUpdate_form_valid, hb,
        applyEffects, applyEffect, savePageInDB_log]
  | false =>
      simp [PageUpdate_run, hp, runAtomic, PageUpdate_form_valid, hb,
        applyEffects, applyEffect, savePageInDB_log]

/-- C4: after an Update, every row carrying the id of the edited Page keeps
the stored slug, whatever slug was submitted; and the edit form's slug
cleaning always echoes the stored slug. -/
theorem update_slug_immutable (s : RequestState) (ev uid pid : Nat)
    (d : PageFormData) (p : Page)
    (hp : PageDetailMixin_get_object s.db ev pid = Except.ok p) :
    (∀ q ∈ (PageUpdate_run s ev uid pid d none).2.db.pages,
      q.id = p.id → q.slug = p.slug) ∧
    PageEditForm_clean_slug p d.slug = p.slug := by
  refine ⟨?_, rfl⟩
  intro q hq hid
  cases hb : (changedData p d).isEmpty with
  | true =>
      simp only [PageUpdate_run, hp, runAtomic, PageUpdate_form_valid, hb,
        if_true, List.nil_append, List.singleton_append, applyEffects,
        List.foldl_cons, List.foldl_nil, applyEffect] at hq
      have hqe := savePageInDB_id_eq _ (applyEditForm p d) q hq hid
      subst hqe
      rfl
  | false =>
      simp only [PageUpdate_run, hp, runAtomic, PageUpdate_form_valid, hb,
        if_false, List.nil_append, List.singleton_append, applyEffects,
        List.foldl_cons, List.foldl_nil, applyEffect, Bool.false_eq_true] at hq
      have hqe := savePageInDB_id_eq _ (applyEditForm p d) q hq hid
      subst hqe
      rfl

/-- Witness for C4: editing the sample page while submitting the slug
"other" keeps its slug "imprint": the cleaned slug is the stored slug and
the persisted row keeps the stored slug. -/
theorem update_slug_immutable_witness :
    PageEditForm_clean_slug pageEx dEx2.slug = pageEx.slug ∧
    (⟨1, 1, "Imprint v2", "imprint", "Hello", true, false⟩ : Page).slug
      = pageEx.slug :=
  ⟨(update_slug_immutable sEx 1 7 1 dEx2 pageEx rfl).2,
   (update_slug_immutable sEx 1 7 1 dEx2 pageEx rfl).1
     ⟨1, 1, "Imprint v2", "imprint", "Hello", true, false⟩ (by decide) rfl⟩

/-- C9: the data payload of a `page.changed` audit entry never contains the
key "slug": the slug is never among the changed fields, and every audit
entry an Update appends carries no "slug" key in its data. -/
theorem changed_audit_never_slug (s : RequestState) (ev uid pid : Nat)
    (d : PageFormData) (p : Page)
    (hp : PageDetailMixin_get_object s.db ev pid = Except.ok p) :
    "slug" ∉ changedData p d ∧
    ∀ new, (PageUpdate_run s ev uid pid d none).2.db.log = s.db.log ++ new →
      ∀ e ∈ new, ∀ kv ∈ e.data.getD [], kv.1 ≠ "slug" := by
  have hslug : "slug" ∉ changedData p d := by
    intro hmem
    have hpred := (List.mem_filter.mp hmem).2
    simp [fieldValue_slug, editCleanedData, pageAsFormData,
      PageEditForm_clean_slug] at hpred
  refine ⟨hslug, ?_⟩
  intro new hnew e he kv hkv hkv1
  have hlog := update_run_log s ev uid pid d p hp
  rw [hnew] at hlog
  have hne := List.append_cancel_left hlog
  subst hne
  cases hb : (changedData p d).isEmpty with
  | true => rw [hb] at he; simp at he
  | false =>
      rw [hb] at he
      simp only [if_false, Bool.false_eq_true, List.mem_singleton] at he
      subst he
      simp only [Option.getD_some] at hkv
      have := (changedDataMap_spec p d kv hkv).1
      rw [hkv1] at this
      exact hslug this

/-- Witness for C9: editing the sample page with a different submitted slug
does not put "slug" among the changed fields. -/
theorem changed_audit_never_slug_witness :
    "slug" ∉ changedData pageEx dEx2 :=
  (changed_audit_never_slug sEx 1 7 1 dEx2 pageEx rfl).1

/-- A successful scoped lookup comes from a successful find. -/
theorem get_object_find (db : DB) (ev pid : Nat) (p : Page)
    (hp : PageDetailMixin_get_object db ev pid = Except.ok p) :
    db.pages.find? (fun q => q.event == ev && q.id == pid) = some p := by
  cases hf : db.pages.find? (fun q => q.event == ev && q.id == pid) with
  | none => simp [PageDetailMixin_get_object, hf] at hp
  | some q =>
      simp only [PageDetailMixin_get_object, hf] at hp
      obtain rfl : q = p := by simpa using hp
      rfl

/-- C5: a Page owned by event A is unreachable under a different event B:
neither the management lookup by id nor the public lookup by slug can return
it; when the database carries no second row with that id (respectively no
row of event B with that slug), both lookups fail with Http404. -/
theorem cross_event_unreachable (db : DB) (p : Page) (evB : Nat)
    (hmem : p ∈ db.pages) (hne : p.event ≠ evB) :
    PageDetailMixin_get_object db evB p.id ≠ Except.ok p ∧
    ShowPageView_get_page db evB p.slug ≠ Except.ok p ∧
    ((∀ q ∈ db.pages, q.id = p.id → q = p) →
      PageDetailMixin_get_object db evB p.id = Except.error Http404.notFound) ∧
    ((∀ q ∈ db.pages, q.event = evB → q.slug ≠ p.slug) →
      ShowPageView_get_page db evB p.slug = Except.error Http404.notFound) := by
  refine ⟨?_, ?_, ?_, ?_⟩
  · intro h
    have hf := get_object_find db evB p.id p h
    have hpred := List.find?_some hf
    simp only [Bool.and_eq_true, beq_iff_eq] at hpred
    exact hne hpred.1
  · intro h
    cases hf : db.pages.find? (fun q => q.event == evB && q.slug == p.slug) with
    | none => simp [ShowPageView_get_page, hf] at h
    | some q =>
        simp only [ShowPageView_get_page, hf] at h
        obtain rfl : q = p := by simpa using h
        have hpred := List.find?_some hf
        simp only [Bool.and_eq_true, beq_iff_eq] at hpred
        exact hne hpred.1
  · intro huniq
    have hf : db.pages.find? (fun q => q.event == evB && q.id == p.id) = none := by
      rw [List.find?_eq_none]
      intro q hq hpred
      simp only [Bool.and_eq_true, beq_iff_eq] at hpred
      have hev := hpred.1
      rw [huniq q hq hpred.2] at hev
      exact hne hev
    simp [PageDetailMixin_get_object, hf]
  · intro hnoslug
    have hf : db.pages.find? (fun q => q.event == evB && q.slug == p.slug) = none := by
      rw [List.find?_eq_none]
      intro q hq hpred
      simp only [Bool.and_eq_true, beq_iff_eq] at hpred
      exact hnoslug q hq hpred.1 hpred.2
    simp [ShowPageView_get_page, hf]

/-- Witness for C5: the sample page of event 1 yields Http404 under event 2
both by id and by slug. -/
theorem cross_event_unreachable_witness :
    PageDetailMixin_get_object dbEx 2 pageEx.id = Except.error Http404.notFound ∧
    ShowPageView_get_page dbEx 2 pageEx.slug = Except.error Http404.notFound :=
  ⟨(cross_event_unreachable dbEx pageEx 2 (by simp [dbEx]) (by decide)).2.2.1
     (by decide),
   (cross_event_unreachable dbEx pageEx 2 (by simp [dbEx]) (by decide)).2.2.2
     (by decide)⟩

/-- C6: a Delete on an existing Page appends the `page.deleted` entry (no
data) and removes the row; a failure at any point of the transaction leaves
the database exactly as before (either both effects happen or neither); and
at every intermediate point of the transaction the audit entry is already
logged whenever the row is already gone, because the audit emission precedes
the deletion. -/
theorem delete_audit_before_atomic (s : RequestState) (ev uid pid : Nat)
    (p : Page)
    (hp : PageDetailMixin_get_object s.db ev pid = Except.ok p) :
    ((PageDelete_run s ev uid pid none).2.db.log
        = s.db.log ++ [⟨p.id, p.event, actionDeleted, uid, none⟩] ∧
      ∀ q ∈ (PageDelete_run s ev uid pid none).2.db.pages, q.id ≠ p.id) ∧
    (∀ n, n < (PageDelete_effects p uid).length →
      (runAtomic s (PageDelete_effects p uid) (some n)).db = s.db) ∧
    (∀ n, p ∈ (applyEffects s ((PageDelete_effects p uid).take n)).db.pages ∨
      (⟨p.id, p.event, actionDeleted, uid, none⟩ : LogEntry)
        ∈ (applyEffects s ((PageDelete_effects p uid).take n)).db.log) := by
  refine ⟨⟨?_, ?_⟩, ?_, ?_⟩
  · simp [PageDelete_run, hp, runAtomic, PageDelete_effects, applyEffects,
      applyEffect]
  · intro q hq hid
    simp only [PageDelete_run, hp, runAtomic, PageDelete_effects, applyEffects,
      List.foldl_cons, List.foldl_nil, applyEffect] at hq
    have := (List.mem_filter.mp hq).2
    simp [hid] at this
  · intro n hn
    simp [runAtomic, hn]
  · intro n
    cases n with
    | zero =>
        left
        exact List.mem_of_find?_eq_some (get_object_find s.db ev pid p hp)
    | succ m =>
        right
        rw [show PageDelete_effects p uid
            = Effect.logAction p.id p.event uid actionDeleted none
              :: [Effect.deletePage p.id, Effect.notify msgDeleted] from rfl,
          List.take_succ_cons, applyEffects_cons]
        have hbase : (⟨p.id, p.event, actionDeleted, uid, none⟩ : LogEntry)
            ∈ (applyEffect s
                (Effect.logAction p.id p.event uid actionDeleted none)).db.log := by
          simp [applyEffect]
        exact applyEffects_log_mono _ _ _ hbase

/-- Witness for C6: deleting the sample page with a failure injected at the
very first effect leaves the database unchanged. -/
theorem delete_audit_before_atomic_witness :
    (runAtomic sEx (PageDelete_effects pageEx 7) (some 0)).db = sEx.db :=
  (delete_audit_before_atomic sEx 1 7 1 pageEx rfl).2.1 0 (by decide)

/-- C7: after a successful Delete, looking the Page up by its id within the
same event fails with Http404. -/
theorem delete_then_lookup_fails (s : RequestState) (ev uid pid : Nat)
    (p : Page)
    (hp : PageDetailMixin_get_object s.db ev pid = Except.ok p) :
    PageDetailMixin_get_object (PageDelete_run s ev uid pid none).2.db ev pid
      = Except.error Http404.notFound := by
  have hid : p.id = pid := by
    have := List.find?_some (get_object_find s.db ev pid p hp)
    simp only [Bool.and_eq_true, beq_iff_eq] at this
    exact this.2
  have hpages : (PageDelete_run s ev uid pid none).2.db.pages
      = s.db.pages.filter (fun q => q.id != p.id) := by
    simp [PageDelete_run, hp, runAtomic, PageDelete_effects, applyEffects,
      applyEffect]
  have hf : (PageDelete_run s ev uid pid none).2.db.pages.find?
      (fun q => q.event == ev && q.id == pid) = none := by
    rw [hpages, List.find?_eq_none]
    intro q hq hpred
    simp only [Bool.and_eq_true, beq_iff_eq] at hpred
    have hqe : q.id = p.id := hpred.2.trans hid.symm
    have := (List.mem_filter.mp hq).2
    simp [hqe] at this
  simp [PageDetailMixin_get_object, hf]

/-- Witness for C7: after deleting the sample page, its id no longer
resolves within event 1. -/
theorem delete_then_lookup_fails_witness :
    PageDetailMixin_get_object (PageDelete_run sEx 1 7 1 none).2.db 1 1
      = Except.error Http404.notFound :=
  delete_then_lookup_fails sEx 1 7 1 pageEx rfl

/-- Running a transaction whose first effect is a notification: a failure at
any later effect rolls the database back, yet the notification stays
queued, because the message queue is request-scoped, not transactional. -/
theorem runAtomic_notify_head (s : RequestState) (m : String)
    (rest : List Effect) (n : Nat) (h1 : 1 ≤ n)
    (hn : n < (Effect.notify m :: rest).length) :
    (runAtomic s (Effect.notify m :: rest) (some n)).db = s.db ∧
    m ∈ (runAtomic s (Effect.notify m :: rest) (some n)).notices := by
  have hn2 : n < rest.length + 1 := by simpa using hn
  refine ⟨by simp [runAtomic, hn2], ?_⟩
  simp only [runAtomic, List.length_cons, hn2, if_true]
  obtain ⟨k, rfl⟩ : ∃ k, n = k + 1 := ⟨n - 1, by omega⟩
  rw [List.take_succ_cons, applyEffects_cons]
  have hbase : m ∈ (applyEffect s (Effect.notify m)).notices := by
    simp [applyEffect]
  exact applyEffects_notices_mono _ _ _ hbase

/-- C10: in both Create and Update the success notification is the first
effect of the transaction body, before the save and before the audit
emission; a failure at any later effect rolls the database back while the
success notification remains queued — the notification is not part of the
atomic unit. -/
theorem notify_queued_before_write (s : RequestState) (ev uid : Nat)
    (d : PageFormData) (p : Page) :
    (PageUpdate_form_valid p d uid)[0]? = some (Effect.notify msgSaved) ∧
    (PageCreate_form_valid s.db ev d uid)[0]? = some (Effect.notify msgCreated) ∧
    (∀ n, 1 ≤ n → n < (PageUpdate_form_valid p d uid).length →
      (runAtomic s (PageUpdate_form_valid p d uid) (some n)).db = s.db ∧
      msgSaved ∈ (runAtomic s (PageUpdate_form_valid p d uid) (some n)).notices) ∧
    (∀ n, 1 ≤ n → n < (PageCreate_form_valid s.db ev d uid).length →
      (runAtomic s (PageCreate_form_valid s.db ev d uid) (some n)).db = s.db ∧
      msgCreated ∈ (runAtomic s (PageCreate_form_valid s.db ev d uid)
        (some n)).notices) := by
  refine ⟨by simp [PageUpdate_form_valid], by simp [PageCreate_form_valid], ?_, ?_⟩
  · intro n h1 hn
    exact runAtomic_notify_head s msgSaved _ n h1 hn
  · intro n h1 hn
    exact runAtomic_notify_head s msgCreated _ n h1 hn

/-- Witness for C10: updating the sample page with a failure injected right
after the notification effect leaves the database unchanged while the
success message is queued. -/
theorem notify_queued_before_write_witness :
    (runAtomic sEx (PageUpdate_form_valid pageEx dEx2 7) (some 1)).db = sEx.db ∧
    msgSaved ∈ (runAtomic sEx (PageUpdate_form_valid pageEx dEx2 7)
      (some 1)).notices :=
  (notify_queued_before_write sEx 1 7 dEx2 pageEx).2.2.1 1 (by decide) (by decide)

end PretixPages
